import Mathlib

/-!
Shallow embedding of the Cheetah example backend
(`examples/backend-python/main.py`): a FastAPI service exposing a health
check and create/list/get operations over a single `ideas` table, with a
naive connection-retry loop.

Modelling choices:
* The relational store is a `DBState`: a list of rows plus the next
  serial id the store will assign.  Timestamps are `Nat`.
* Exceptions are the inductive `Exc`, mirroring the exception classes the
  handlers distinguish: `psycopg2.OperationalError` (a subclass of
  `psycopg2.Error`), other `psycopg2.Error`s, `HTTPException`, and any
  other `Exception`.
* `psycopg2.connect` is driven by an attempt schedule
  `attempts : Nat → AttemptResult` giving the result of the i-th
  connection attempt (0-based).
* `cur.execute` failures are driven by an `exec : Option Exc` parameter:
  `some e` means the statement raises `e`, `none` means it runs normally
  with the SQL semantics below.
* Each handler returns its HTTP-level result together with the store
  state after the call, so that frame properties can be stated.
-/

/-- A persisted row of the `ideas` table: `id` (serial primary key),
`content` (text), `created_at` (timestamp, modelled as `Nat`). -/
structure Row where
  id : Nat
  content : String
  created_at : Nat
deriving DecidableEq, Repr

/-- The state of the relational store: the rows of the `ideas` table and
the next id the serial column will assign. -/
structure DBState where
  rows : List Row
  nextId : Nat
deriving DecidableEq, Repr

/-- Store invariant: every existing row's id is below the next serial id.
Any state reachable from an empty table by inserts satisfies this. -/
def DBState.wf (st : DBState) : Prop :=
  ∀ r ∈ st.rows, r.id < st.nextId

/-- The exception taxonomy the handlers distinguish. -/
inductive Exc where
  | pgOperational (msg : String)
  | pgError (msg : String)
  | http (status_code : Nat) (detail : String)
  | other (msg : String)
deriving DecidableEq, Repr

/-- Result of one `psycopg2.connect(DATABASE_URL)` attempt:
success, a `psycopg2.OperationalError` (transient connectivity failure,
caught and retried by the loop), or any other exception (not caught). -/
inductive AttemptResult where
  | ok
  | opError (msg : String)
  | otherExc (e : Exc)
deriving DecidableEq, Repr

/-- Outcome of `get_db_connection`: an open connection, a raised
exception, or the fall-through path in which the `while` loop exits
without returning (the Python function then implicitly returns `None`).
Each outcome records the number of attempts made and the cumulative
sleep delay in time units. -/
inductive ConnOutcome where
  | connected (made elapsed : Nat)
  | raised (e : Exc) (made elapsed : Nat)
  | fellThrough (made elapsed : Nat)
deriving DecidableEq, Repr

/-- `true` exactly on the fall-through outcome of `get_db_connection`. -/
def ConnOutcome.isFallThrough : ConnOutcome → Bool
  | .fellThrough _ _ => true
  | _ => false

/-- The `while retry_count < max_retries` loop of `get_db_connection`,
with `remaining = max_retries - retry_count` as the recursion variable
(the guard `retry_count < max_retries` is `0 < remaining`, and the
post-increment check `retry_count >= max_retries` is `remaining - 1 = 0`).
`made` counts attempts so far, `elapsed` the cumulative `time.sleep(2)`
delay.  On `opError` the loop increments the count and either re-raises
the error (when retries are exhausted) or sleeps 2 units and retries;
any other exception is not caught and propagates at once. -/
def connectLoop (attempts : Nat → AttemptResult) :
    Nat → Nat → Nat → ConnOutcome
  | 0, made, elapsed => .fellThrough made elapsed
  | remaining + 1, made, elapsed =>
    match attempts made with
    | .ok => .connected (made + 1) elapsed
    | .opError msg =>
      if remaining = 0 then
        .raised (.pgOperational msg) (made + 1) elapsed
      else
        connectLoop attempts remaining (made + 1) (elapsed + 2)
    | .otherExc e => .raised e (made + 1) elapsed

/-- `get_db_connection`: connect with retry, `max_retries = 5`, starting
from `retry_count = 0`, no attempts made and no delay accumulated. -/
def get_db_connection (attempts : Nat → AttemptResult) : ConnOutcome :=
  connectLoop attempts 5 0 0

/-- The pydantic `Idea` model: optional `id`, required `content`,
optional `created_at`. -/
structure Idea where
  id : Option Nat
  content : String
  created_at : Option Nat
deriving DecidableEq, Repr

/-- The pydantic `HealthResponse` model. -/
structure HealthResponse where
  status : String
  timestamp : Nat
  version : String
deriving DecidableEq, Repr

/-- FastAPI `HTTPException`: a status code and a detail message. -/
structure HTTPException where
  status_code : Nat
  detail : String
deriving DecidableEq, Repr

/-- Map a table row to an `Idea` (`Idea(id=r[0], content=r[1],
created_at=r[2])`). -/
def rowToIdea (r : Row) : Idea :=
  ⟨some r.id, r.content, some r.created_at⟩

/-- Comparison used by `ORDER BY created_at DESC`: `a` may precede `b`
iff `b.created_at ≤ a.created_at`. -/
def rowGE (a b : Row) : Prop :=
  b.created_at ≤ a.created_at

instance : DecidableRel rowGE := fun a b => Nat.decLe b.created_at a.created_at

instance : IsTotal Row rowGE :=
  ⟨fun a b => Nat.le_total b.created_at a.created_at⟩

instance : IsTrans Row rowGE :=
  ⟨fun _ _ _ hab hbc => Nat.le_trans hbc hab⟩

/-- Semantics of `SELECT id, content, created_at FROM ideas ORDER BY
created_at DESC;`: the rows sorted by `created_at` descending.  The
store does not modify the table on a SELECT. -/
def selectAllOrdered (st : DBState) : List Row × DBState :=
  (List.insertionSort rowGE st.rows, st)

/-- Semantics of `SELECT id, content, created_at FROM ideas WHERE
id = %s;` followed by `fetchone()`: the first row whose id matches. -/
def selectById (idea_id : Int) (st : DBState) : Option Row × DBState :=
  (st.rows.find? (fun r => decide ((r.id : Int) = idea_id)), st)

/-- Semantics of `INSERT INTO ideas (content, created_at) VALUES (%s, %s)
RETURNING id, created_at;` followed by `commit()`: append a row carrying
the store-assigned serial id and the supplied timestamp, bump the serial,
and return the assigned `(id, created_at)`. -/
def insertIdea (content : String) (now : Nat) (st : DBState) :
    (Nat × Nat) × DBState :=
  ((st.nextId, now), ⟨st.rows ++ [⟨st.nextId, content, now⟩], st.nextId + 1⟩)

/-- The `try` body of `list_ideas`: acquire a connection (any exception
from the retry loop propagates; the unreachable `None` connection would
raise an `AttributeError` at `conn.cursor()`), run the ordered SELECT,
map rows to `Idea`s. -/
def list_ideas_body (attempts : Nat → AttemptResult) (exec : Option Exc)
    (st : DBState) : Except Exc (List Idea) × DBState :=
  match get_db_connection attempts with
  | .connected _ _ =>
    match exec with
    | some e => (.error e, st)
    | none =>
      match selectAllOrdered st with
      | (rows, st') => (.ok (rows.map rowToIdea), st')
  | .raised e _ _ => (.error e, st)
  | .fellThrough _ _ => (.error (.other "AttributeError: NoneType"), st)

/-- `GET /api/ideas` handler `list_ideas`: on any exception in the body,
respond `HTTPException(status_code=500, detail="Failed to fetch ideas")`. -/
def list_ideas (attempts : Nat → AttemptResult) (exec : Option Exc)
    (st : DBState) : Except HTTPException (List Idea) × DBState :=
  match list_ideas_body attempts exec st with
  | (.ok ideas, st') => (.ok ideas, st')
  | (.error _, st') => (.error ⟨500, "Failed to fetch ideas"⟩, st')

/-- The `try` body of `add_idea`: acquire a connection, INSERT the
client-supplied `content` with the current timestamp, commit, and build
the response from the returned `(id, created_at)` and `idea.content`.
On a failed statement nothing is committed, so the store is unchanged. -/
def add_idea_body (attempts : Nat → AttemptResult) (exec : Option Exc)
    (idea : Idea) (now : Nat) (st : DBState) : Except Exc Idea × DBState :=
  match get_db_connection attempts with
  | .connected _ _ =>
    match exec with
    | some e => (.error e, st)
    | none =>
      match insertIdea idea.content now st with
      | (row, st') => (.ok ⟨some row.1, idea.content, some row.2⟩, st')
  | .raised e _ _ => (.error e, st)
  | .fellThrough _ _ => (.error (.other "AttributeError: NoneType"), st)

/-- `POST /api/ideas` handler `add_idea`: on any exception in the body,
respond `HTTPException(status_code=500, detail="Failed to add idea")`. -/
def add_idea (attempts : Nat → AttemptResult) (exec : Option Exc)
    (idea : Idea) (now : Nat) (st : DBState) :
    Except HTTPException Idea × DBState :=
  match add_idea_body attempts exec idea now st with
  | (.ok out, st') => (.ok out, st')
  | (.error _, st') => (.error ⟨500, "Failed to add idea"⟩, st')

/-- The `try` body of `get_idea`: acquire a connection, SELECT by id; if
no row matches, raise `HTTPException(404, "Idea not found")`, else build
the `Idea` from the row. -/
def get_idea_body (attempts : Nat → AttemptResult) (exec : Option Exc)
    (idea_id : Int) (st : DBState) : Except Exc Idea × DBState :=
  match get_db_connection attempts with
  | .connected _ _ =>
    match exec with
    | some e => (.error e, st)
    | none =>
      match (selectById idea_id st).1 with
      | none => (.error (.http 404 "Idea not found"), st)
      | some r => (.ok (rowToIdea r), st)
  | .raised e _ _ => (.error e, st)
  | .fellThrough _ _ => (.error (.other "AttributeError: NoneType"), st)

/-- The `except` clauses of `get_idea`, in source order: a
`psycopg2.Error` (which includes `psycopg2.OperationalError`) becomes
500 "Database error"; an `HTTPException` is re-raised as is; any other
exception becomes 500 "Internal server error". -/
def getIdeaExceptClauses (e : Exc) : HTTPException :=
  match e with
  | .pgOperational _ => ⟨500, "Database error"⟩
  | .pgError _ => ⟨500, "Database error"⟩
  | .http s d => ⟨s, d⟩
  | .other _ => ⟨500, "Internal server error"⟩

/-- `GET /api/ideas/{idea_id}` handler `get_idea`: exceptions raised by
the body are translated by the source's `except` clauses. -/
def get_idea (attempts : Nat → AttemptResult) (exec : Option Exc)
    (idea_id : Int) (st : DBState) : Except HTTPException Idea × DBState :=
  match get_idea_body attempts exec idea_id st with
  | (.ok i, st') => (.ok i, st')
  | (.error e, st') => (.error (getIdeaExceptClauses e), st')

/-- `GET /health` handler `health_check`: try to acquire and close a
connection, swallowing every exception; the connection outcome only
determines the internally logged `db_status` string (second component).
The response always has status "healthy", the current timestamp, and
version "1.0.0"; nothing touches the store. -/
def health_check (attempts : Nat → AttemptResult) (now : Nat)
    (st : DBState) : (HealthResponse × String) × DBState :=
  match get_db_connection attempts with
  | .connected _ _ => ((⟨"healthy", now, "1.0.0"⟩, "connected"), st)
  | _ => ((⟨"healthy", now, "1.0.0"⟩, "disconnected"), st)

/-- Spec ordering predicate for list results: for any entry `A` before an
entry `B`, whenever both timestamps are present, `B.created_at ≤
A.created_at`. -/
def ideaGE (a b : Idea) : Prop :=
  ∀ ta tb, a.created_at = some ta → b.created_at = some tb → tb ≤ ta

/-- A list of `Idea`s sorted in descending `created_at` order. -/
def sortedDescIdeas (l : List Idea) : Prop :=
  List.Pairwise ideaGE l

/-- Attempt schedule on which every connection attempt succeeds. -/
def okAttempts : Nat → AttemptResult := fun _ => .ok

/-- Attempt schedule on which every connection attempt fails with a
transient connectivity error. -/
def failAttempts : Nat → AttemptResult := fun _ => .opError "connection refused"

/-- Attempt schedule: first attempt fails transiently, the second raises
a non-connectivity exception. -/
def mixedAttempts : Nat → AttemptResult :=
  fun i => if i = 0 then .opError "timeout" else .otherExc (.other "boom")

/-- A concrete two-row store used by witnesses. -/
def wSt : DBState := ⟨[⟨1, "a", 5⟩, ⟨2, "b", 9⟩], 3⟩

/-! ### Lemmas about the retry loop -/

/-- If every attempt up to index `made + n` is a transient failure, the
loop entered with `n + 1` retries left re-raises the last operational
error after `n + 1` attempts and `2 * n` units of sleep. -/
lemma connectLoop_allFail (attempts : Nat → AttemptResult) (m : Nat → String) :
    ∀ n made elapsed,
      (∀ i, i ≤ n → attempts (made + i) = .opError (m (made + i))) →
      connectLoop attempts (n + 1) made elapsed =
        .raised (.pgOperational (m (made + n))) (made + n + 1) (elapsed + 2 * n) := by
  intro n
  induction n with
  | zero =>
    intro made elapsed h
    have h0 := h 0 (Nat.le_refl 0)
    simp only [Nat.add_zero] at h0
    simp [connectLoop, h0]
  | succ k ih =>
    intro made elapsed h
    have h0 := h 0 (Nat.zero_le _)
    simp only [Nat.add_zero] at h0
    have hrec := ih (made + 1) (elapsed + 2) (by
      intro i hi
      have := h (i + 1) (by omega)
      have hx : made + (i + 1) = made + 1 + i := by omega
      rwa [hx] at this)
    have h1 : made + 1 + k = made + (k + 1) := by omega
    have h2 : elapsed + 2 + 2 * k = elapsed + 2 * (k + 1) := by omega
    rw [h1, h2] at hrec
    conv_lhs => rw [connectLoop]
    rw [h0]
    simpa using hrec

/-- If the first `j` attempts (counting from index `made`) fail
transiently and attempt `made + j` succeeds, the loop returns an open
connection after `j + 1` attempts and `2 * j` units of sleep, provided
more than `j` retries are left. -/
lemma connectLoop_firstOk (attempts : Nat → AttemptResult) :
    ∀ j remaining made elapsed, j < remaining →
      (∀ i, i < j → ∃ s, attempts (made + i) = .opError s) →
      attempts (made + j) = .ok →
      connectLoop attempts remaining made elapsed =
        .connected (made + j + 1) (elapsed + 2 * j) := by
  intro j
  induction j with
  | zero =>
    intro remaining made elapsed hlt _ hok
    simp only [Nat.add_zero] at hok
    match remaining, hlt with
    | r + 1, _ => simp [connectLoop, hok]
  | succ k ih =>
    intro remaining made elapsed hlt hfail hok
    obtain ⟨s, hs⟩ := hfail 0 (Nat.succ_pos k)
    simp only [Nat.add_zero] at hs
    match remaining, hlt with
    | r + 1, hlt =>
      have hr : k < r := by omega
      have hrec := ih r (made + 1) (elapsed + 2) hr (by
        intro i hi
        obtain ⟨t, ht⟩ := hfail (i + 1) (by omega)
        have hx : made + (i + 1) = made + 1 + i := by omega
        exact ⟨t, by rwa [hx] at ht⟩) (by
        have hx : made + (k + 1) = made + 1 + k := by omega
        rwa [hx] at hok)
      have h1 : made + 1 + k + 1 = made + (k + 1) + 1 := by omega
      have h2 : elapsed + 2 + 2 * k = elapsed + 2 * (k + 1) := by omega
      rw [h1, h2] at hrec
      have hrne : r ≠ 0 := by omega
      conv_lhs => rw [connectLoop]
      rw [hs]
      simpa [hrne] using hrec

/-- If the first `j` attempts fail transiently and attempt `made + j`
raises a non-connectivity exception, the loop propagates that exception
at once: `j + 1` attempts made and no sleep beyond the `2 * j` units
already spent between the transient failures. -/
lemma connectLoop_firstOther (attempts : Nat → AttemptResult) (e : Exc) :
    ∀ j remaining made elapsed, j < remaining →
      (∀ i, i < j → ∃ s, attempts (made + i) = .opError s) →
      attempts (made + j) = .otherExc e →
      connectLoop attempts remaining made elapsed =
        .raised e (made + j + 1) (elapsed + 2 * j) := by
  intro j
  induction j with
  | zero =>
    intro remaining made elapsed hlt _ hraise
    simp only [Nat.add_zero] at hraise
    match remaining, hlt with
    | r + 1, _ => simp [connectLoop, hraise]
  | succ k ih =>
    intro remaining made elapsed hlt hfail hraise
    obtain ⟨s, hs⟩ := hfail 0 (Nat.succ_pos k)
    simp only [Nat.add_zero] at hs
    match remaining, hlt with
    | r + 1, hlt =>
      have hr : k < r := by omega
      have hrec := ih r (made + 1) (elapsed + 2) hr (by
        intro i hi
        obtain ⟨t, ht⟩ := hfail (i + 1) (by omega)
        have hx : made + (i + 1) = made + 1 + i := by omega
        exact ⟨t, by rwa [hx] at ht⟩) (by
        have hx : made + (k + 1) = made + 1 + k := by omega
        rwa [hx] at hraise)
      have h1 : made + 1 + k + 1 = made + (k + 1) + 1 := by omega
      have h2 : elapsed + 2 + 2 * k = elapsed + 2 * (k + 1) := by omega
      rw [h1, h2] at hrec
      have hrne : r ≠ 0 := by omega
      conv_lhs => rw [connectLoop]
      rw [hs]
      simpa [hrne] using hrec

/-- Entered with at least one retry left, the loop never reaches the
fall-through path: it always returns a connection or raises. -/
lemma connectLoop_not_fallThrough (attempts : Nat → AttemptResult) :
    ∀ remaining made elapsed, 0 < remaining →
      (connectLoop attempts remaining made elapsed).isFallThrough = false := by
  intro remaining
  induction remaining with
  | zero => intro _ _ h; omega
  | succ r ih =>
    intro made elapsed _
    rcases ha : attempts made with _ | msg | e
    · simp [connectLoop, ha, ConnOutcome.isFallThrough]
    · rcases Nat.eq_zero_or_pos r with hr | hr
      · subst hr; simp [connectLoop, ha, ConnOutcome.isFallThrough]
      · have hrec := ih (made + 1) (elapsed + 2) hr
        have hrne : r ≠ 0 := by omega
        conv_lhs => rw [connectLoop]
        rw [ha]
        simpa [hrne] using hrec
    · simp [connectLoop, ha, ConnOutcome.isFallThrough]

/-! ### Claim theorems -/

/-- C10: `get_db_connection` is total over its two outcomes: for every
attempt schedule it returns an open connection or raises; the
fall-through path (returning a `None` connection) is unreachable. -/
theorem get_db_connection_total (attempts : Nat → AttemptResult) :
    (get_db_connection attempts).isFallThrough = false :=
  connectLoop_not_fallThrough attempts 5 0 0 (by omega)

/-- C2: connection acquisition retries up to 5 attempts with a delay of
2 time units between attempts.  If all 5 attempts fail transiently the
operational error is surfaced after exactly `2 * 4` units of cumulative
delay (the flat 2-unit delay separates consecutive attempts, so 5
attempts incur 4 delays, within the spec's "approximately 5 × 2");
if the store recovers at some attempt `k < 5` the call succeeds. -/
theorem retry_bound_and_recovery (attempts : Nat → AttemptResult)
    (m : Nat → String) :
    ((∀ i, i ≤ 4 → attempts i = .opError (m i)) →
      get_db_connection attempts = .raised (.pgOperational (m 4)) 5 (2 * 4) ∧
        2 * 4 ≤ 5 * 2) ∧
    (∀ k, k < 5 → (∀ i, i < k → ∃ s, attempts i = .opError s) →
      attempts k = .ok →
      get_db_connection attempts = .connected (k + 1) (2 * k)) := by
  constructor
  · intro h
    refine ⟨?_, by omega⟩
    have := connectLoop_allFail attempts m 4 0 0 (by
      intro i hi
      simpa using h i hi)
    simpa [get_db_connection] using this
  · intro k hk hfail hok
    have := connectLoop_firstOk attempts k 5 0 0 hk (by
      intro i hi
      simpa using hfail i hi) (by simpa using hok)
    simpa [get_db_connection] using this

/-- Witness for C2: on the always-failing schedule the call surfaces the
operational error after 5 attempts and 8 units of delay. -/
theorem retry_bound_and_recovery_witness :
    get_db_connection failAttempts =
      .raised (.pgOperational "connection refused") 5 (2 * 4) ∧
      2 * 4 ≤ 5 * 2 :=
  (retry_bound_and_recovery failAttempts (fun _ => "connection refused")).1
    (fun _ _ => rfl)

/-- C6: only transient connectivity failures are retried: if the first
`k` attempts fail transiently and attempt `k` raises a non-connectivity
exception, that exception is surfaced at once — exactly `k + 1` attempts
are made and no delay is added beyond the `2 * k` units already spent
between the transient failures. -/
theorem non_transient_not_retried (attempts : Nat → AttemptResult) (e : Exc)
    (k : Nat) (hk : k < 5)
    (hfail : ∀ i, i < k → ∃ s, attempts i = .opError s)
    (hother : attempts k = .otherExc e) :
    get_db_connection attempts = .raised e (k + 1) (2 * k) := by
  have := connectLoop_firstOther attempts e k 5 0 0 hk (by
    intro i hi
    simpa using hfail i hi) (by simpa using hother)
  simpa [get_db_connection] using this

/-- Witness for C6: a transient failure then a non-connectivity
exception: surfaced after 2 attempts and 2 units of delay. -/
theorem non_transient_not_retried_witness :
    get_db_connection mixedAttempts = .raised (.other "boom") 2 (2 * 1) :=
  non_transient_not_retried mixedAttempts (.other "boom") 1 (by omega)
    (fun i hi => ⟨"timeout", by
      have h0 : i = 0 := by omega
      subst h0
      rfl⟩)
    rfl

/-- C4: the health check returns status "healthy" with the current
timestamp for every attempt schedule — in particular when connection
acquisition fails after exhausting retries — and never raises (its type
has no error component): the underlying failure only determines the
internally logged `db_status` string. -/
theorem health_check_always_healthy (attempts : Nat → AttemptResult)
    (now : Nat) (st : DBState) :
    (health_check attempts now st).1.1.status = "healthy" ∧
    (health_check attempts now st).1.1.timestamp = now ∧
    (health_check attempts now st).1.1.version = "1.0.0" := by
  rcases h : get_db_connection attempts with _ | _ | _ <;>
    simp [health_check, h]

/-- C7: any exception during list-ideas or add-idea yields a 500 with a
fixed message independent of the underlying error `e`: "Failed to fetch
ideas" and "Failed to add idea" respectively. -/
theorem data_access_failure_generic_500 (attempts : Nat → AttemptResult)
    (e : Exc) (st : DBState) (req : Idea) (now : Nat) :
    (list_ideas attempts (some e) st).1 =
      .error ⟨500, "Failed to fetch ideas"⟩ ∧
    (add_idea attempts (some e) req now st).1 =
      .error ⟨500, "Failed to add idea"⟩ := by
  rcases hc : get_db_connection attempts with _ | _ | _ <;>
    simp [list_ideas, list_ideas_body, add_idea, add_idea_body, hc]

/-- C9: add-idea ignores any client-supplied `id` and `created_at`: the
persisted row and the response use the store-assigned id and the
service-generated timestamp, and the response content is the request's
content. -/
theorem client_supplied_fields_ignored (cid cts : Option Nat)
    (content : String) (now : Nat) (st : DBState) :
    add_idea okAttempts none ⟨cid, content, cts⟩ now st =
      (.ok ⟨some st.nextId, content, some now⟩,
       ⟨st.rows ++ [⟨st.nextId, content, now⟩], st.nextId + 1⟩) := rfl

/-- C3: on a working store, get-idea for an id matching no row fails
with status 404 "Idea not found"; a data-access failure on the same
operation fails with status 500 "Database error"; the two are
distinguishable by status. -/
theorem get_idea_not_found_vs_db_error (idea_id : Int) (st : DBState)
    (msg : String) :
    ((∀ r ∈ st.rows, (r.id : Int) ≠ idea_id) →
      (get_idea okAttempts none idea_id st).1 =
        .error ⟨404, "Idea not found"⟩) ∧
    (get_idea okAttempts (some (.pgError msg)) idea_id st).1 =
      .error ⟨500, "Database error"⟩ ∧
    (404 : Nat) ≠ 500 := by
  refine ⟨?_, rfl, by omega⟩
  intro h
  have hnone :
      st.rows.find? (fun r => decide ((r.id : Int) = idea_id)) = none := by
    rw [List.find?_eq_none]
    intro r hr
    simpa using h r hr
  have hconn : get_db_connection okAttempts = ConnOutcome.connected 1 0 := rfl
  simp [get_idea, get_idea_body, getIdeaExceptClauses, selectById, hconn, hnone]

/-- Witness for C3: id 999 matches no row of the two-row store, so the
call fails with 404. -/
theorem get_idea_not_found_vs_db_error_witness :
    (get_idea okAttempts none 999 wSt).1 = .error ⟨404, "Idea not found"⟩ :=
  (get_idea_not_found_vs_db_error 999 wSt "oops").1 (by decide)

/-- C5: whenever list-ideas succeeds, its result is sorted in descending
`created_at` order (for any entry A before an entry B,
B.created_at ≤ A.created_at), and an empty store yields the empty
sequence. -/
theorem list_ideas_sorted (attempts : Nat → AttemptResult) (exec : Option Exc)
    (st : DBState) (ideas : List Idea) (st' : DBState)
    (h : list_ideas attempts exec st = (.ok ideas, st')) :
    sortedDescIdeas ideas ∧ (st.rows = [] → ideas = []) := by
  have hideas : ideas = (List.insertionSort rowGE st.rows).map rowToIdea := by
    rcases hc : get_db_connection attempts with _ | _ | _ <;>
      rcases exec with _ | e <;>
        simp [list_ideas, list_ideas_body, selectAllOrdered, hc] at h
    exact h.1.symm
  have hsorted : List.Pairwise rowGE (List.insertionSort rowGE st.rows) :=
    List.sorted_insertionSort rowGE st.rows
  refine ⟨?_, ?_⟩
  · rw [hideas]
    refine List.Pairwise.map rowToIdea ?_ hsorted
    intro a b hab ta tb hta htb
    simp only [rowToIdea, Option.some.injEq] at hta htb
    simp only [rowGE] at hab
    omega
  · intro hnil
    rw [hideas, hnil]
    rfl

/-- Witness for C5: on the two-row store the successful result is
sorted descending. -/
theorem list_ideas_sorted_witness :
    sortedDescIdeas [(⟨some 2, "b", some 9⟩ : Idea), ⟨some 1, "a", some 5⟩] :=
  (list_ideas_sorted okAttempts none wSt
    [⟨some 2, "b", some 9⟩, ⟨some 1, "a", some 5⟩] wSt rfl).1

/-- C1: against a well-formed store with working connectivity, add-idea
with any request content followed by get-idea on the returned id yields
an Idea whose content is the supplied content and whose id and
created_at are non-null (the store-assigned id and the service
timestamp). -/
theorem add_then_get_roundtrip (req : Idea) (now : Nat) (st : DBState)
    (hwf : st.wf) :
    ∃ out st', add_idea okAttempts none req now st = (.ok out, st') ∧
      out.content = req.content ∧ out.id = some st.nextId ∧
      out.created_at = some now ∧
      (get_idea okAttempts none (st.nextId : Int) st').1 =
        .ok ⟨some st.nextId, req.content, some now⟩ := by
  refine ⟨⟨some st.nextId, req.content, some now⟩,
    ⟨st.rows ++ [⟨st.nextId, req.content, now⟩], st.nextId + 1⟩,
    ?_, rfl, rfl, rfl, ?_⟩
  · rfl
  have hnone :
      st.rows.find? (fun r => decide ((r.id : Int) = (st.nextId : Int))) =
        none := by
    rw [List.find?_eq_none]
    intro r hr
    have hlt := hwf r hr
    simp only [decide_eq_true_eq, Nat.cast_inj]
    omega
  have hfind :
      ((st.rows ++ [(⟨st.nextId, req.content, now⟩ : Row)]).find?
        (fun r => decide ((r.id : Int) = (st.nextId : Int)))) =
        some ⟨st.nextId, req.content, now⟩ := by
    rw [List.find?_append, hnone]
    simp [List.find?]
  have hconn : get_db_connection okAttempts = ConnOutcome.connected 1 0 := rfl
  simp only [get_idea, get_idea_body, selectById, hconn, hfind, rowToIdea]

/-- Witness for C1: insert "ship it" at time 7 into the two-row store,
then fetch it back by the returned id. -/
theorem add_then_get_roundtrip_witness :
    (get_idea okAttempts none (wSt.nextId : Int)
        (add_idea okAttempts none ⟨none, "ship it", none⟩ 7 wSt).2).1 =
      .ok ⟨some wSt.nextId, "ship it", some 7⟩ := by
  obtain ⟨out, st', h1, h2, h3, h4, h5⟩ :=
    add_then_get_roundtrip ⟨none, "ship it", none⟩ 7 wSt (by
      unfold DBState.wf
      decide)
  have hst : (add_idea okAttempts none ⟨none, "ship it", none⟩ 7 wSt).2 =
      st' := by
    rw [h1]
  rw [hst]
  exact h5

/-- C8: health-check, list-ideas and get-idea leave the store unchanged
for every attempt schedule and execution outcome; add-idea only ever
appends — on success exactly the one new row (existing rows and their
fields untouched), and on any outcome the old rows are an unchanged
initial segment of the new ones. -/
theorem operations_frame (attempts : Nat → AttemptResult) (exec : Option Exc)
    (st : DBState) (req : Idea) (now : Nat) (idea_id : Int) :
    (health_check attempts now st).2 = st ∧
    (list_ideas attempts exec st).2 = st ∧
    (get_idea attempts exec idea_id st).2 = st ∧
    (∀ out st', add_idea attempts exec req now st = (.ok out, st') →
      st'.rows = st.rows ++ [⟨st.nextId, req.content, now⟩] ∧
      st'.nextId = st.nextId + 1) ∧
    (∀ res st', add_idea attempts exec req now st = (res, st') →
      ∃ t, st'.rows = st.rows ++ t) := by
  refine ⟨?_, ?_, ?_, ?_, ?_⟩
  · rcases hc : get_db_connection attempts with _ | _ | _ <;>
      simp [health_check, hc]
  · rcases hc : get_db_connection attempts with _ | _ | _ <;>
      rcases exec with _ | e <;>
      simp [list_ideas, list_ideas_body, selectAllOrdered, hc]
  · rcases hc : get_db_connection attempts with _ | _ | _ <;>
      rcases exec with _ | e <;>
      rcases hf : st.rows.find? (fun r => decide ((r.id : Int) = idea_id))
        with _ | r <;>
      simp [get_idea, get_idea_body, selectById, hc, hf]
  · intro out st' h
    rcases hc : get_db_connection attempts with _ | _ | _ <;>
      rcases exec with _ | e <;>
      simp [add_idea, add_idea_body, insertIdea, hc] at h
    obtain ⟨-, h2⟩ := h
    subst h2
    exact ⟨rfl, rfl⟩
  · intro res st' h
    rcases hc : get_db_connection attempts with _ | _ | _ <;>
      rcases exec with _ | e <;>
      simp [add_idea, add_idea_body, insertIdea, hc] at h <;>
      obtain ⟨-, h2⟩ := h <;>
      subst h2
    all_goals
      first
      | exact ⟨[], (List.append_nil _).symm⟩
      | exact ⟨[⟨st.nextId, req.content, now⟩], rfl⟩

/-- Witness for C8: on the two-row store, list-ideas leaves the store
unchanged and a successful add-idea appends exactly the new row. -/
theorem operations_frame_witness :
    (list_ideas okAttempts none wSt).2 = wSt ∧
    (⟨wSt.rows ++ [⟨3, "ship it", 7⟩], 4⟩ : DBState).rows =
      wSt.rows ++ [⟨wSt.nextId, "ship it", 7⟩] ∧
    (⟨wSt.rows ++ [⟨3, "ship it", 7⟩], 4⟩ : DBState).nextId =
      wSt.nextId + 1 := by
  have h := operations_frame okAttempts none wSt ⟨none, "ship it", none⟩ 7 999
  exact ⟨h.2.1,
    h.2.2.2.1 ⟨some 3, "ship it", some 7⟩
      (⟨wSt.rows ++ [(⟨3, "ship it", 7⟩ : Row)], 4⟩ : DBState) rfl⟩
